import Mathlib

/-!
Shallow embedding of the task-manager persistence layer
(`src/database.py`, `src/models/task.py`, `src/models/category.py`,
`src/utils/data_export.py`).

The SQLite store is modelled as explicit state: the `tasks` and
`categories` tables are lists of rows in rowid order, together with the
AUTOINCREMENT counters.  Each mutating method of `TaskDatabase` becomes a
function from state (plus the timestamps produced by `datetime.now()`,
passed as arguments) to a pair of the resulting stored state and an
optional error; the `transaction` context manager's rollback semantics
mean a failing operation returns the original state.  SQLite specifics
that the code relies on are modelled directly: `PRAGMA foreign_keys = ON`
makes the `tasks.category -> categories(name)` foreign key effective
(insert/update with an unknown category fails, and deleting a category
resets referencing tasks to the column default `General`), `LIKE` is
ASCII-case-insensitive with `%`/`_` wildcards, and `sqlite3.Error` raised
by a statement is converted by `TaskDatabase.transaction` into a
`DatabaseError` whose message is `Transaction failed: <sqlite message>`.
-/

namespace TaskManager

/-- Errors surfaced by the persistence layer: `DatabaseError` (the custom
storage exception of `database.py`) and Python's `ValueError`, each with
its message. -/
inductive DBError where
  | databaseError (msg : String)
  | valueError (msg : String)
deriving DecidableEq, Repr

/-- One row of the `tasks` table.  `completed` is stored as INTEGER 0/1 in
SQLite; since every write goes through `int(task.completed)` and every
read through `bool(row[5])`, it is modelled as `Bool`.  Nullable TEXT
columns are `Option String`. -/
structure TaskRow where
  id : Nat
  description : String
  priority : String
  category : String
  due_date : Option String
  completed : Bool
  created_at : String
  updated_at : String
  completed_at : Option String
deriving DecidableEq, Repr

/-- One row of the `categories` table. -/
structure CategoryRow where
  id : Nat
  name : String
  description : Option String
deriving DecidableEq, Repr

/-- The stored database state: both tables in rowid order plus the
AUTOINCREMENT counters (`sqlite_sequence`) for fresh ids. -/
structure DBState where
  tasks : List TaskRow
  categories : List CategoryRow
  nextTaskId : Nat
  nextCatId : Nat
deriving DecidableEq, Repr

/-- The `Task` dataclass of `models/task.py` (field order as declared
there). -/
structure Task where
  description : String
  priority : String
  category : String
  completed : Bool
  id : Option Nat
  due_date : Option String
  created_at : Option String
  updated_at : Option String
  completed_at : Option String
deriving DecidableEq, Repr

/-- The `Category` dataclass of `models/category.py`. -/
structure Category where
  name : String
  description : Option String
  id : Option Nat
deriving DecidableEq, Repr

/-- Model of `Task.__post_init__`: the description must be non-empty and not
whitespace-only (`not description or not description.strip()`, i.e. not
all characters whitespace), and the priority must be one of the four
levels. -/
def taskValid (t : Task) : Bool :=
  !(t.description.data.all (fun c => c.isWhitespace)) &&
    ["Low", "Medium", "High", "Urgent"].contains t.priority

/-- Model of `Task.from_db_row`: rebuild a `Task` from a row of the `tasks` table
(the Python classmethod passes the fields through the validating
constructor; rows written by this layer from validated tasks always
pass). -/
def Task.from_db_row (r : TaskRow) : Task :=
  { description := r.description
    priority := r.priority
    category := r.category
    completed := r.completed
    id := some r.id
    due_date := r.due_date
    created_at := some r.created_at
    updated_at := some r.updated_at
    completed_at := r.completed_at }

/-- The state `TaskDatabase._create_initial_schema` leaves a fresh
database in: empty `tasks`, the default `General` category (rowid 1). -/
def initialState : DBState :=
  { tasks := []
    categories := [{ id := 1, name := "General",
                     description := some "Default category for uncategorized tasks" }]
    nextTaskId := 1
    nextCatId := 2 }

/-- Does the `categories` table contain a row named `n`?  (Used by the
foreign-key check on `tasks.category`.) -/
def hasCategory (db : DBState) (n : String) : Bool :=
  db.categories.any (fun c => c.name == n)

/-- Model of `TaskDatabase.insert_task`: one INSERT inside a transaction, writing
`description, priority, category, due_date, completed` from the task and
`created_at = updated_at = now`; `completed_at` is not in the column list
so it gets its NULL default.  With `PRAGMA foreign_keys = ON`, an unknown
category makes the statement fail, the transaction roll back, and a
`DatabaseError` `Transaction failed: FOREIGN KEY constraint failed`
surface (the `except sqlite3.Error` handler of `insert_task` never sees
it, because `transaction` already re-raised it as `DatabaseError`).  On
success `cursor.lastrowid`, the fresh AUTOINCREMENT id, is returned. -/
def insert_task (db : DBState) (t : Task) (now : String) :
    DBState × Except DBError Nat :=
  if hasCategory db t.category then
    ({ db with
        tasks := db.tasks ++
          [{ id := db.nextTaskId
             description := t.description
             priority := t.priority
             category := t.category
             due_date := t.due_date
             completed := t.completed
             created_at := now
             updated_at := now
             completed_at := none }]
        nextTaskId := db.nextTaskId + 1 },
     Except.ok db.nextTaskId)
  else
    (db, Except.error (DBError.databaseError
      "Transaction failed: FOREIGN KEY constraint failed"))

/-- Model of `TaskDatabase.update_task`: rejects a task without id (`ValueError`),
then one UPDATE of `description, priority, category, due_date, completed,
updated_at` by id.  If no row matches, `cursor.rowcount == 0` and a
not-found `DatabaseError` is raised (the statement changed nothing); if a
row matches but the new category violates the foreign key, the statement
fails and the transaction rolls back.  `completed_at` is never touched. -/
def update_task (db : DBState) (t : Task) (now : String) :
    DBState × Option DBError :=
  match t.id with
  | none => (db, some (DBError.valueError "Cannot update task without ID"))
  | some tid =>
    if db.tasks.any (fun r => r.id == tid) then
      if hasCategory db t.category then
        ({ db with
            tasks := db.tasks.map (fun r =>
              if r.id == tid then
                { r with
                    description := t.description
                    priority := t.priority
                    category := t.category
                    due_date := t.due_date
                    completed := t.completed
                    updated_at := now }
              else r) },
         none)
      else
        (db, some (DBError.databaseError
          "Transaction failed: FOREIGN KEY constraint failed"))
    else
      (db, some (DBError.databaseError
        ("Task with ID " ++ toString tid ++ " not found")))

/-- Model of `TaskDatabase.get_task_by_id`: `SELECT * FROM tasks WHERE id = ?`,
mapped through `Task.from_db_row`; absent id gives `None`. -/
def get_task_by_id (db : DBState) (tid : Nat) : Option Task :=
  (db.tasks.find? (fun r => r.id == tid)).map Task.from_db_row

/-- Model of `TaskDatabase.mark_task_complete`: one UPDATE setting
`completed = 1`, `completed_at` and `updated_at` to two separate
`datetime.now().isoformat()` calls (`now₁`, `now₂`); rowcount-zero raises
the not-found `DatabaseError`. -/
def mark_task_complete (db : DBState) (tid : Nat) (now₁ now₂ : String) :
    DBState × Option DBError :=
  if db.tasks.any (fun r => r.id == tid) then
    ({ db with
        tasks := db.tasks.map (fun r =>
          if r.id == tid then
            { r with completed := true, completed_at := some now₁,
                     updated_at := now₂ }
          else r) },
     none)
  else
    (db, some (DBError.databaseError
      ("Task with ID " ++ toString tid ++ " not found")))

/-- Model of `TaskDatabase.mark_task_incomplete`: one UPDATE setting
`completed = 0`, `completed_at = NULL`, `updated_at = now`; rowcount-zero
raises the not-found `DatabaseError`. -/
def mark_task_incomplete (db : DBState) (tid : Nat) (now : String) :
    DBState × Option DBError :=
  if db.tasks.any (fun r => r.id == tid) then
    ({ db with
        tasks := db.tasks.map (fun r =>
          if r.id == tid then
            { r with completed := false, completed_at := none,
                     updated_at := now }
          else r) },
     none)
  else
    (db, some (DBError.databaseError
      ("Task with ID " ++ toString tid ++ " not found")))

/-- Model of `TaskDatabase.delete_task`: one DELETE by id; rowcount-zero raises the
not-found `DatabaseError`. -/
def delete_task (db : DBState) (tid : Nat) : DBState × Option DBError :=
  if db.tasks.any (fun r => r.id == tid) then
    ({ db with tasks := db.tasks.filter (fun r => !(r.id == tid)) }, none)
  else
    (db, some (DBError.databaseError
      ("Task with ID " ++ toString tid ++ " not found")))

/-- Model of `TaskDatabase.insert_category`: one INSERT inside a transaction.  A
duplicate name violates the UNIQUE constraint; `transaction` converts the
`IntegrityError` into `DatabaseError "Transaction failed: UNIQUE
constraint failed: categories.name"` before the
`except sqlite3.IntegrityError` clause of `insert_category` could match
it, so that clause's `already exists` message is unreachable. -/
def insert_category (db : DBState) (c : Category) :
    DBState × Except DBError Nat :=
  if db.categories.any (fun r => r.name == c.name) then
    (db, Except.error (DBError.databaseError
      "Transaction failed: UNIQUE constraint failed: categories.name"))
  else
    ({ db with
        categories := db.categories ++
          [{ id := db.nextCatId, name := c.name, description := c.description }]
        nextCatId := db.nextCatId + 1 },
     Except.ok db.nextCatId)

/-- Model of `TaskDatabase.delete_category`: refuses `General` with a `ValueError`
before touching the store; otherwise one DELETE by name (rowcount-zero
raises the not-found `DatabaseError`).  Because `PRAGMA foreign_keys =
ON` and the foreign key is declared `ON DELETE SET DEFAULT`, tasks whose
category is deleted are reset to the column default `General`. -/
def delete_category (db : DBState) (name : String) :
    DBState × Option DBError :=
  if name == "General" then
    (db, some (DBError.valueError "Cannot delete the General category"))
  else if db.categories.any (fun c => c.name == name) then
    ({ db with
        categories := db.categories.filter (fun c => !(c.name == name))
        tasks := db.tasks.map (fun r =>
          if r.category == name then { r with category := "General" } else r) },
     none)
  else
    (db, some (DBError.databaseError
      ("Category '" ++ name ++ "' not found")))

/-- SQLite folds the 26 ASCII uppercase letters for its default
case-insensitive `LIKE`. -/
def lowerC (c : Char) : Char :=
  if 'A' ≤ c ∧ c ≤ 'Z' then Char.ofNat (c.toNat + 32) else c

/-- SQLite `LIKE` pattern matching over whole strings: `%` matches any
(possibly empty) sequence, `_` matches exactly one character, any other
pattern character matches ASCII-case-insensitively. -/
def likeMatch : List Char → List Char → Bool
  | [], s => s.isEmpty
  | p :: ps, s =>
    if p = '%' then s.tails.any (fun t => likeMatch ps t)
    else
      match s with
      | [] => false
      | d :: t => (if p = '_' then true else lowerC p == lowerC d) && likeMatch ps t

/-- Model of `s LIKE pat` on strings. -/
def sqlLike (s pat : String) : Bool := likeMatch pat.data s.data

/-- Contiguous-substring containment on character lists (used to state
what `search_tasks` returns). -/
def containsSub (s q : List Char) : Bool :=
  s.tails.any (fun t => q.isPrefixOf t)

/-- A search query free of the SQL LIKE wildcards `%` and `_`. -/
def noWildcards (q : String) : Bool :=
  q.data.all (fun c => !(c == '%' || c == '_'))

/-- Model of `ORDER BY created_at DESC` (the sort only permutes the filtered
rows). -/
def orderByCreatedDesc (l : List TaskRow) : List TaskRow :=
  l.insertionSort (fun a b => b.created_at ≤ a.created_at)

/-- Model of `TaskDatabase.get_tasks_by_category`:
`SELECT * FROM tasks WHERE category = ? ORDER BY created_at DESC`
(`=` on TEXT is case-sensitive). -/
def get_tasks_by_category (db : DBState) (category : String) : List TaskRow :=
  orderByCreatedDesc (db.tasks.filter (fun r => r.category == category))

/-- Model of `TaskDatabase.get_tasks_by_priority`:
`SELECT * FROM tasks WHERE priority = ? ORDER BY created_at DESC`. -/
def get_tasks_by_priority (db : DBState) (priority : String) : List TaskRow :=
  orderByCreatedDesc (db.tasks.filter (fun r => r.priority == priority))

/-- Model of `TaskDatabase.search_tasks`:
`SELECT * FROM tasks WHERE description LIKE ? ORDER BY created_at DESC`
with the parameter `f"%{query}%"`. -/
def search_tasks (db : DBState) (query : String) : List TaskRow :=
  orderByCreatedDesc
    (db.tasks.filter (fun r => sqlLike r.description ("%" ++ query ++ "%")))

/-- SQLite's `date(s)` for the application's `YYYY-MM-DD` strings: a
well-formed calendar-looking date normalizes to itself, anything else
yields NULL.  (Comparison of two normalized date strings is lexicographic,
which on fixed-width ISO dates coincides with chronological order.) -/
def isISODate (s : String) : Bool :=
  match s.data with
  | [y1, y2, y3, y4, c1, m1, m2, c2, d1, d2] =>
    y1.isDigit && y2.isDigit && y3.isDigit && y4.isDigit &&
    (c1 == '-') && (c2 == '-') &&
    m1.isDigit && m2.isDigit && d1.isDigit && d2.isDigit &&
    (let m := (m1.toNat - 48) * 10 + (m2.toNat - 48)
     let d := (d1.toNat - 48) * 10 + (d2.toNat - 48)
     decide (1 ≤ m) && decide (m ≤ 12) && decide (1 ≤ d) && decide (d ≤ 31))
  | _ => false

/-- Model of `date(s)` as an optional normalized date string. -/
def sqlDate (s : String) : Option String :=
  if isISODate s then some s else none

/-- The SQL overdue condition of `get_task_statistics`:
`completed = 0 AND due_date IS NOT NULL AND date(due_date) < date('now')`,
with `today` standing for `date('now')`. -/
def overdueCond (today : String) (r : TaskRow) : Bool :=
  !r.completed &&
    (match r.due_date with
     | some d =>
       match sqlDate d with
       | some d₂ => decide (d₂ < today)
       | none => false
     | none => false)

/-- Model of `GROUP BY f` with `COUNT(*)`, as the Python `dict(cursor.fetchall())`:
one entry per distinct key, counting the rows with that key (entry order
immaterial to the claims). -/
def groupCounts (l : List TaskRow) (f : TaskRow → String) :
    List (String × Nat) :=
  (l.map f).dedup.map (fun k => (k, (l.filter (fun r => f r == k)).length))

/-- The dictionary returned by `TaskDatabase.get_task_statistics`.
`active` is Python integer subtraction `total - completed`. -/
structure Statistics where
  total : Nat
  completed : Nat
  active : Int
  by_priority : List (String × Nat)
  by_category : List (String × Nat)
  overdue : Nat
deriving DecidableEq, Repr

/-- Model of `TaskDatabase.get_task_statistics`: COUNT of all tasks, COUNT of
completed ones, their difference, GROUP BY priority and category over
`completed = 0` rows, and the overdue count; `today` is `date('now')`. -/
def get_task_statistics (db : DBState) (today : String) : Statistics :=
  { total := db.tasks.length
    completed := (db.tasks.filter (fun r => r.completed)).length
    active := (db.tasks.length : Int) -
      ((db.tasks.filter (fun r => r.completed)).length : Int)
    by_priority := groupCounts (db.tasks.filter (fun r => !r.completed))
      (fun r => r.priority)
    by_category := groupCounts (db.tasks.filter (fun r => !r.completed))
      (fun r => r.category)
    overdue := (db.tasks.filter (overdueCond today)).length }

/-- Model of `Task.to_dict`: the serialized dictionary of a task (the JSON object
written per task by `DataExporter.export_to_json`). -/
structure TaskDict where
  id : Option Nat
  description : String
  priority : String
  category : String
  due_date : Option String
  completed : Bool
  created_at : Option String
  updated_at : Option String
  completed_at : Option String
deriving DecidableEq, Repr

/-- Model of `Task.to_dict`. -/
def Task.to_dict (t : Task) : TaskDict :=
  { id := t.id
    description := t.description
    priority := t.priority
    category := t.category
    due_date := t.due_date
    completed := t.completed
    created_at := t.created_at
    updated_at := t.updated_at
    completed_at := t.completed_at }

/-- Model of `Task.from_dict`: `cls(**data)` runs the validating constructor, so a
dictionary with an empty description or an invalid priority raises. -/
def Task.from_dict (d : TaskDict) : Option Task :=
  let t : Task :=
    { description := d.description
      priority := d.priority
      category := d.category
      completed := d.completed
      id := d.id
      due_date := d.due_date
      created_at := d.created_at
      updated_at := d.updated_at
      completed_at := d.completed_at }
  if taskValid t then some t else none

/-- The JSON envelope written by `DataExporter.export_to_json`. -/
structure JsonExport where
  exported_at : String
  task_count : Nat
  tasks : List TaskDict
deriving DecidableEq, Repr

/-- Model of `DataExporter.export_to_json`: envelope with the export timestamp,
the task count and one dictionary per task. -/
def export_to_json (tasks : List Task) (exportedAt : String) : JsonExport :=
  { exported_at := exportedAt
    task_count := tasks.length
    tasks := tasks.map Task.to_dict }

/-- Model of `DataExporter.import_from_json`: for each entry of `tasks`, pop the
`id` key and rebuild through the validating constructor; the first
malformed record aborts the whole import. -/
def import_from_json (j : JsonExport) : Option (List Task) :=
  j.tasks.mapM (fun d => Task.from_dict { d with id := none })

/-- One call to a mutating operation of the persistence layer (timestamps
produced by `datetime.now()` are carried as data). -/
inductive Op where
  | insert (t : Task) (now : String)
  | update (t : Task) (now : String)
  | complete (tid : Nat) (now₁ now₂ : String)
  | incomplete (tid : Nat) (now : String)
  | delete (tid : Nat)
  | insertCat (c : Category)
  | deleteCat (name : String)
deriving Repr

/-- The stored state after one operation (a failing operation leaves the
committed state unchanged). -/
def stepOp (db : DBState) : Op → DBState
  | Op.insert t now => (insert_task db t now).1
  | Op.update t now => (update_task db t now).1
  | Op.complete tid n₁ n₂ => (mark_task_complete db tid n₁ n₂).1
  | Op.incomplete tid now => (mark_task_incomplete db tid now).1
  | Op.delete tid => (delete_task db tid).1
  | Op.insertCat c => (insert_category db c).1
  | Op.deleteCat name => (delete_category db name).1

/-! ### Supporting lemmas -/

theorem find?_append_singleton {α : Type} (p : α → Bool) (l : List α) (x : α)
    (h : ∀ r ∈ l, p r = false) :
    List.find? p (l ++ [x]) = if p x then some x else none := by
  induction l with
  | nil =>
    cases hx : p x <;> simp [List.find?, hx]
  | cons a l ih =>
    have ha := h a (List.mem_cons_self a l)
    simp only [List.cons_append, List.find?, ha]
    exact ih (fun r hr => h r (List.mem_cons_of_mem a hr))

/-! ### C1 -/

/-- Field-by-field equality of two tasks outside `created_at` and
`updated_at` (the comparison the C1 claim asserts between the inserted
and the fetched task). -/
def eqExceptTimestampsB (a b : Task) : Bool :=
  a.id == b.id && a.description == b.description && a.priority == b.priority &&
  a.category == b.category && a.due_date == b.due_date &&
  a.completed == b.completed && a.completed_at == b.completed_at

/-- A valid task carrying a non-null `completed_at`, exhibiting that
insertion does not round-trip that field. -/
def c1Task : Task :=
  { description := "write report", priority := "Medium", category := "General",
    completed := false, id := none, due_date := none, created_at := none,
    updated_at := none, completed_at := some "2024-01-01T09:00:00" }

/-- C1, counterexample: inserting the valid task `c1Task` (whose
`completed_at` is non-null) into a fresh store and fetching it back by
the returned identifier 1 yields a task that is NOT equal to `c1Task`
outside the two timestamps `created_at`/`updated_at`: the INSERT column
list omits `completed_at`, so it comes back NULL, and `id` comes back as
the fresh identifier rather than `none`. -/
theorem c1_insert_fetch_counterexample :
    (get_task_by_id (insert_task initialState c1Task "2024-02-02T10:00:00").1 1).map
      (fun u => eqExceptTimestampsB u c1Task) = some false := by decide

/-- C1 (amended): for every valid task `t` whose category exists in the
category table, inserted into a store whose task rowids are below the
AUTOINCREMENT counter, `insert_task` returns the fresh identifier and
`get_task_by_id` of that identifier yields a task equal to `t` in
`description`, `priority`, `category`, `due_date` and `completed`, whose
`created_at` and `updated_at` are newly populated with the insertion
timestamp, whose `completed_at` is reset to null, and whose `id` is the
returned identifier. -/
theorem c1_insert_fetch (db : DBState) (t : Task) (now : String)
    (_hv : taskValid t = true)
    (hcat : hasCategory db t.category = true)
    (hfresh : ∀ r ∈ db.tasks, r.id < db.nextTaskId) :
    (insert_task db t now).2 = Except.ok db.nextTaskId ∧
    get_task_by_id (insert_task db t now).1 db.nextTaskId =
      some { description := t.description, priority := t.priority,
             category := t.category, completed := t.completed,
             id := some db.nextTaskId, due_date := t.due_date,
             created_at := some now, updated_at := some now,
             completed_at := none } := by
  refine ⟨by simp [insert_task, hcat], ?_⟩
  have hne : ∀ r ∈ db.tasks, (r.id == db.nextTaskId) = false := by
    intro r hr
    have := hfresh r hr
    simp [Nat.ne_of_lt this]
  simp only [insert_task, hcat, if_true, get_task_by_id]
  rw [find?_append_singleton _ _ _ hne]
  simp [Task.from_db_row]

/-- C1 witness: the amended theorem applied to a concrete valid task on
the fresh store. -/
theorem c1_insert_fetch_witness :
    taskValid c1Task = true ∧
    hasCategory initialState c1Task.category = true ∧
    (∀ r ∈ initialState.tasks, r.id < initialState.nextTaskId) ∧
    ((insert_task initialState c1Task "2024-02-02T10:00:00").2 = Except.ok 1 ∧
     get_task_by_id (insert_task initialState c1Task "2024-02-02T10:00:00").1 1 =
       some { description := "write report", priority := "Medium",
              category := "General", completed := false, id := some 1,
              due_date := none, created_at := some "2024-02-02T10:00:00",
              updated_at := some "2024-02-02T10:00:00", completed_at := none }) :=
  ⟨by decide, by decide, by decide,
   c1_insert_fetch initialState c1Task "2024-02-02T10:00:00"
     (by decide) (by decide) (by decide)⟩

/-! ### C2 -/

/-- A task carrying the absent identifier 7, for exercising the
not-found paths. -/
def c2Task : Task :=
  { description := "ghost", priority := "Low", category := "General",
    completed := false, id := some 7, due_date := none, created_at := none,
    updated_at := none, completed_at := none }

/-- C2: on an identifier absent from the `tasks` table, `update_task`,
`delete_task`, `mark_task_complete` and `mark_task_incomplete` each
detect `cursor.rowcount == 0`, leave the store unchanged and raise the
not-found `DatabaseError` instead of silently succeeding; fetching an
absent identifier yields `none`; and after a delete the deleted
identifier always fetches as `none`. -/
theorem c2_not_found (db : DBState) (tid : Nat) (t : Task)
    (now n₁ n₂ : String)
    (habs : ∀ r ∈ db.tasks, r.id ≠ tid)
    (hid : t.id = some tid) :
    update_task db t now =
      (db, some (DBError.databaseError
        ("Task with ID " ++ toString tid ++ " not found"))) ∧
    delete_task db tid =
      (db, some (DBError.databaseError
        ("Task with ID " ++ toString tid ++ " not found"))) ∧
    mark_task_complete db tid n₁ n₂ =
      (db, some (DBError.databaseError
        ("Task with ID " ++ toString tid ++ " not found"))) ∧
    mark_task_incomplete db tid now =
      (db, some (DBError.databaseError
        ("Task with ID " ++ toString tid ++ " not found"))) ∧
    get_task_by_id db tid = none ∧
    (∀ db₂ : DBState, get_task_by_id ((delete_task db₂ tid).1) tid = none) := by
  have hany : (db.tasks.any (fun r => r.id == tid)) = false := by
    rw [List.any_eq_false]
    intro r hr
    simp [habs r hr]
  refine ⟨?_, ?_, ?_, ?_, ?_, ?_⟩
  · simp [update_task, hid, hany]
  · simp [delete_task, hany]
  · simp [mark_task_complete, hany]
  · simp [mark_task_incomplete, hany]
  · simp only [get_task_by_id]
    rw [List.find?_eq_none.mpr]
    · rfl
    · intro r hr
      simp [habs r hr]
  · intro db₂
    by_cases hpres : (db₂.tasks.any (fun r => r.id == tid)) = true
    · simp only [delete_task, hpres, if_true, get_task_by_id]
      rw [List.find?_eq_none.mpr]
      · rfl
      · intro r hr
        have := List.mem_filter.mp hr
        simpa using this.2
    · rw [Bool.not_eq_true] at hpres
      simp only [delete_task, hpres, Bool.false_eq_true, if_false,
        get_task_by_id]
      rw [List.find?_eq_none.mpr]
      · rfl
      · intro r hr
        have h₂ := List.any_eq_false.mp hpres r hr
        simpa using h₂

/-- C2 witness: the theorem applied to the fresh store (no tasks) and
identifier 7. -/
theorem c2_not_found_witness :
    (∀ r ∈ initialState.tasks, r.id ≠ 7) ∧
    update_task initialState c2Task "T" =
      (initialState, some (DBError.databaseError "Task with ID 7 not found")) ∧
    get_task_by_id initialState 7 = none :=
  ⟨by decide,
   (c2_not_found initialState 7 c2Task "T" "T1" "T2" (by decide) rfl).1,
   (c2_not_found initialState 7 c2Task "T" "T1" "T2" (by decide) rfl).2.2.2.2.1⟩

/-! ### C3 -/

/-- C3: for an identifier present in the store, `mark_task_complete`
succeeds and leaves every row with that identifier completed with a
non-null `completed_at` (the first `datetime.now()` value), and
`mark_task_incomplete` succeeds and leaves it not completed with a null
`completed_at`. -/
theorem c3_mark_complete_incomplete (db : DBState) (tid : Nat)
    (n₁ n₂ n₃ : String)
    (hpres : ∃ r ∈ db.tasks, r.id = tid) :
    (mark_task_complete db tid n₁ n₂).2 = none ∧
    (∀ r ∈ (mark_task_complete db tid n₁ n₂).1.tasks,
      r.id = tid → r.completed = true ∧ r.completed_at = some n₁) ∧
    (mark_task_incomplete db tid n₃).2 = none ∧
    (∀ r ∈ (mark_task_incomplete db tid n₃).1.tasks,
      r.id = tid → r.completed = false ∧ r.completed_at = none) := by
  have hany : (db.tasks.any (fun r => r.id == tid)) = true := by
    rw [List.any_eq_true]
    obtain ⟨r, hr, hid⟩ := hpres
    exact ⟨r, hr, by simp [hid]⟩
  refine ⟨by simp [mark_task_complete, hany], ?_,
          by simp [mark_task_incomplete, hany], ?_⟩
  · intro r hr hid
    simp only [mark_task_complete, hany, if_true] at hr
    obtain ⟨a, _, ha⟩ := List.mem_map.mp hr
    by_cases hc : (a.id == tid) = true
    · rw [if_pos hc] at ha
      rw [← ha]
      exact ⟨rfl, rfl⟩
    · rw [if_neg hc] at ha
      rw [← ha] at hid
      exact absurd (by simp [hid]) hc
  · intro r hr hid
    simp only [mark_task_incomplete, hany, if_true] at hr
    obtain ⟨a, _, ha⟩ := List.mem_map.mp hr
    by_cases hc : (a.id == tid) = true
    · rw [if_pos hc] at ha
      rw [← ha]
      exact ⟨rfl, rfl⟩
    · rw [if_neg hc] at ha
      rw [← ha] at hid
      exact absurd (by simp [hid]) hc

/-- C3 witness: the theorem applied to a one-task store. -/
theorem c3_mark_witness :
    (∃ r ∈ (insert_task initialState c2Task "T0").1.tasks, r.id = 1) ∧
    (mark_task_complete (insert_task initialState c2Task "T0").1 1 "T1" "T2").2 =
      none ∧
    (mark_task_incomplete (insert_task initialState c2Task "T0").1 1 "T3").2 =
      none :=
  ⟨by decide,
   (c3_mark_complete_incomplete (insert_task initialState c2Task "T0").1 1
     "T1" "T2" "T3" (by decide)).1,
   (c3_mark_complete_incomplete (insert_task initialState c2Task "T0").1 1
     "T1" "T2" "T3" (by decide)).2.2.1⟩

/-! ### C10 -/

/-- The row-wise frame relation for the mark operations: the new row
keeps the old row's identifier, description, priority, category, due
date and creation time, and rows whose identifier is not the targeted
one are completely unchanged. -/
def MarkFrame (tid : Nat) (r r₂ : TaskRow) : Prop :=
  r₂.id = r.id ∧ r₂.description = r.description ∧
  r₂.priority = r.priority ∧ r₂.category = r.category ∧
  r₂.due_date = r.due_date ∧ r₂.created_at = r.created_at ∧
  (r.id ≠ tid → r₂ = r)

/-- C10: `mark_task_complete` and `mark_task_incomplete` touch only the
`completed`, `completed_at` and `updated_at` columns of the rows with
the targeted identifier: the task list stays row-for-row related by
`MarkFrame`, and the category table and id counters are untouched
(whether or not the identifier is present). -/
theorem c10_mark_frame (db : DBState) (tid : Nat) (n₁ n₂ n₃ : String) :
    (mark_task_complete db tid n₁ n₂).1.categories = db.categories ∧
    (mark_task_complete db tid n₁ n₂).1.nextTaskId = db.nextTaskId ∧
    (mark_task_complete db tid n₁ n₂).1.nextCatId = db.nextCatId ∧
    List.Forall₂ (MarkFrame tid) db.tasks (mark_task_complete db tid n₁ n₂).1.tasks ∧
    (mark_task_incomplete db tid n₃).1.categories = db.categories ∧
    (mark_task_incomplete db tid n₃).1.nextTaskId = db.nextTaskId ∧
    (mark_task_incomplete db tid n₃).1.nextCatId = db.nextCatId ∧
    List.Forall₂ (MarkFrame tid) db.tasks (mark_task_incomplete db tid n₃).1.tasks := by
  by_cases hany : (db.tasks.any (fun r => r.id == tid)) = true
  · refine ⟨by simp [mark_task_complete, hany], by simp [mark_task_complete, hany],
      by simp [mark_task_complete, hany], ?_,
      by simp [mark_task_incomplete, hany], by simp [mark_task_incomplete, hany],
      by simp [mark_task_incomplete, hany], ?_⟩
    · simp only [mark_task_complete, hany, if_true]
      rw [List.forall₂_map_right_iff, List.forall₂_same]
      intro r _
      by_cases hc : (r.id == tid) = true
      · rw [if_pos hc]
        exact ⟨rfl, rfl, rfl, rfl, rfl, rfl, fun hne => absurd (by simpa using hc) hne⟩
      · rw [if_neg hc]
        exact ⟨rfl, rfl, rfl, rfl, rfl, rfl, fun _ => rfl⟩
    · simp only [mark_task_incomplete, hany, if_true]
      rw [List.forall₂_map_right_iff, List.forall₂_same]
      intro r _
      by_cases hc : (r.id == tid) = true
      · rw [if_pos hc]
        exact ⟨rfl, rfl, rfl, rfl, rfl, rfl, fun hne => absurd (by simpa using hc) hne⟩
      · rw [if_neg hc]
        exact ⟨rfl, rfl, rfl, rfl, rfl, rfl, fun _ => rfl⟩
  · rw [Bool.not_eq_true] at hany
    have hframe : List.Forall₂ (MarkFrame tid) db.tasks db.tasks := by
      rw [List.forall₂_same]
      intro r _
      exact ⟨rfl, rfl, rfl, rfl, rfl, rfl, fun _ => rfl⟩
    refine ⟨by simp [mark_task_complete, hany], by simp [mark_task_complete, hany],
      by simp [mark_task_complete, hany], by simpa [mark_task_complete, hany] using hframe,
      by simp [mark_task_incomplete, hany], by simp [mark_task_incomplete, hany],
      by simp [mark_task_incomplete, hany], by simpa [mark_task_incomplete, hany] using hframe⟩

/-- C10 witness: the frame theorem instantiated on a concrete two-task
store (the nested implication hypotheses are discharged by the
application itself). -/
theorem c10_mark_frame_witness :
    (mark_task_complete (insert_task initialState c2Task "T0").1 1 "T1" "T2").1.categories =
      (insert_task initialState c2Task "T0").1.categories ∧
    List.Forall₂ (MarkFrame 1) (insert_task initialState c2Task "T0").1.tasks
      (mark_task_complete (insert_task initialState c2Task "T0").1 1 "T1" "T2").1.tasks :=
  ⟨(c10_mark_frame (insert_task initialState c2Task "T0").1 1 "T1" "T2" "T3").1,
   (c10_mark_frame (insert_task initialState c2Task "T0").1 1 "T1" "T2" "T3").2.2.2.1⟩

/-! ### C4 -/

/-- The completion-timestamp discipline claimed by the spec: a row's
`completed_at` is non-null exactly when its `completed` flag is set. -/
def InvCompleted (db : DBState) : Prop :=
  ∀ r ∈ db.tasks, r.completed_at.isSome = r.completed

/-- The calling discipline under which the persistence layer maintains
`InvCompleted`: tasks handed to `insert_task` are not yet completed, and
`update_task` passes the target row's current `completed` flag unchanged
(completion is toggled only through the mark operations).  All other
operations are unrestricted. -/
def OpOk (db : DBState) : Op → Prop
  | Op.insert t _ => t.completed = false
  | Op.update t _ => ∀ r ∈ db.tasks, t.id = some r.id → t.completed = r.completed
  | _ => True

/-- States reachable from the fresh schema through operations satisfying
the `OpOk` discipline. -/
inductive ReachableOk : DBState → Prop where
  | init : ReachableOk initialState
  | step {db : DBState} {op : Op} (h : ReachableOk db) (hok : OpOk db op) :
      ReachableOk (stepOp db op)

theorem invCompleted_step (db : DBState) (op : Op)
    (ih : InvCompleted db) (hok : OpOk db op) : InvCompleted (stepOp db op) := by
  cases op with
  | insert t now =>
    intro r hr
    by_cases hcat : hasCategory db t.category = true
    · simp only [stepOp, insert_task, hcat, if_true] at hr
      rcases List.mem_append.mp hr with h₁ | h₂
      · exact ih r h₁
      · have hf : t.completed = false := hok
        have : r = { id := db.nextTaskId, description := t.description,
                     priority := t.priority, category := t.category,
                     due_date := t.due_date, completed := t.completed,
                     created_at := now, updated_at := now,
                     completed_at := none } := by simpa using h₂
        rw [this, hf]
        rfl
    · simp only [stepOp, insert_task, hcat, if_false] at hr
      exact ih r hr
  | update t now =>
    intro r hr
    rcases hid : t.id with _ | tid
    · simp only [stepOp, update_task, hid] at hr
      exact ih r hr
    · by_cases hany : (db.tasks.any (fun r => r.id == tid)) = true
      · by_cases hcat : hasCategory db t.category = true
        · simp only [stepOp, update_task, hid, hany, hcat, if_true] at hr
          obtain ⟨a, ha, hfa⟩ := List.mem_map.mp hr
          by_cases hc : (a.id == tid) = true
          · rw [if_pos hc] at hfa
            have heq : t.completed = a.completed := by
              apply hok a ha
              rw [hid, beq_iff_eq.mp hc]
            rw [← hfa]
            show a.completed_at.isSome = t.completed
            rw [heq]
            exact ih a ha
          · rw [if_neg hc] at hfa
            rw [← hfa]
            exact ih a ha
        · simp only [stepOp, update_task, hid, hany, hcat, if_true, if_false] at hr
          exact ih r hr
      · simp only [stepOp, update_task, hid] at hr
        rw [if_neg hany] at hr
        exact ih r hr
  | complete tid n₁ n₂ =>
    intro r hr
    by_cases hany : (db.tasks.any (fun r => r.id == tid)) = true
    · simp only [stepOp, mark_task_complete, hany, if_true] at hr
      obtain ⟨a, ha, hfa⟩ := List.mem_map.mp hr
      by_cases hc : (a.id == tid) = true
      · rw [if_pos hc] at hfa
        rw [← hfa]
        rfl
      · rw [if_neg hc] at hfa
        rw [← hfa]
        exact ih a ha
    · simp only [stepOp, mark_task_complete] at hr
      rw [if_neg hany] at hr
      exact ih r hr
  | incomplete tid now =>
    intro r hr
    by_cases hany : (db.tasks.any (fun r => r.id == tid)) = true
    · simp only [stepOp, mark_task_incomplete, hany, if_true] at hr
      obtain ⟨a, ha, hfa⟩ := List.mem_map.mp hr
      by_cases hc : (a.id == tid) = true
      · rw [if_pos hc] at hfa
        rw [← hfa]
        rfl
      · rw [if_neg hc] at hfa
        rw [← hfa]
        exact ih a ha
    · simp only [stepOp, mark_task_incomplete] at hr
      rw [if_neg hany] at hr
      exact ih r hr
  | delete tid =>
    intro r hr
    by_cases hany : (db.tasks.any (fun r => r.id == tid)) = true
    · simp only [stepOp, delete_task, hany, if_true] at hr
      exact ih r (List.mem_filter.mp hr).1
    · simp only [stepOp, delete_task] at hr
      rw [if_neg hany] at hr
      exact ih r hr
  | insertCat c =>
    intro r hr
    by_cases hdup : (db.categories.any (fun r => r.name == c.name)) = true
    · simp only [stepOp, insert_category, hdup, if_true] at hr
      exact ih r hr
    · simp only [stepOp, insert_category] at hr
      rw [if_neg hdup] at hr
      exact ih r hr
  | deleteCat name =>
    intro r hr
    by_cases hgen : (name == "General") = true
    · simp only [stepOp, delete_category, hgen, if_true] at hr
      exact ih r hr
    · by_cases hex : (db.categories.any (fun c => c.name == name)) = true
      · simp only [stepOp, delete_category, hgen, hex, if_true, if_false,
          Bool.false_eq_true] at hr
        obtain ⟨a, ha, hfa⟩ := List.mem_map.mp hr
        by_cases hc : (a.category == name) = true
        · rw [if_pos hc] at hfa
          rw [← hfa]
          exact ih a ha
        · rw [if_neg hc] at hfa
          rw [← hfa]
          exact ih a ha
      · simp only [stepOp, delete_category] at hr
        rw [if_neg hgen, if_neg hex] at hr
        exact ih r hr

/-- A valid task that arrives already completed (as an imported completed
task would): `insert_task` stores `completed = 1` but leaves
`completed_at` NULL. -/
def c4Task : Task :=
  { description := "already done", priority := "High", category := "General",
    completed := true, id := none, due_date := none, created_at := none,
    updated_at := none, completed_at := some "2024-01-05T08:00:00" }

/-- C4, counterexample: after the one-operation sequence that inserts the
valid completed task `c4Task`, the store contains a row with
`completed = true` but `completed_at` NULL, so the claimed invariant
fails for an unrestricted sequence of the provided operations. -/
theorem c4_counterexample :
    ((insert_task initialState c4Task "2024-02-02T10:00:00").1.tasks.all
      (fun r => r.completed_at.isSome == r.completed)) = false := by decide

/-- C4 (amended): every store reachable from the fresh schema satisfies
`completed_at` non-null iff `completed`, provided the operation sequence
follows the `OpOk` discipline: inserted tasks have `completed = false`
and updates do not change the stored `completed` flag.  (Without that
discipline the invariant fails, see the counterexample.) -/
theorem c4_completed_at_invariant (db : DBState) (h : ReachableOk db) :
    InvCompleted db := by
  induction h with
  | init =>
    intro r hr
    simp [initialState] at hr
  | step _ hok ih =>
    exact invCompleted_step _ _ ih hok

/-- C4 witness: the invariant holds of the concrete store obtained by
inserting a fresh task and completing it, a trace satisfying the
discipline. -/
theorem c4_invariant_witness :
    InvCompleted (stepOp (stepOp initialState (Op.insert c2Task "T0"))
      (Op.complete 1 "T1" "T2")) :=
  c4_completed_at_invariant _
    (ReachableOk.step (ReachableOk.step ReachableOk.init rfl) trivial)

/-! ### C5 -/

/-- The category table contains the default `General` category. -/
def GeneralExists (db : DBState) : Prop :=
  ∃ c ∈ db.categories, c.name = "General"

/-- C5: the fresh schema contains the `General` category, every provided
mutating operation preserves its presence, and `delete_category` of
`"General"` raises the `ValueError` and leaves the store unchanged. -/
theorem c5_general_category :
    GeneralExists initialState ∧
    (∀ (db : DBState) (op : Op), GeneralExists db → GeneralExists (stepOp db op)) ∧
    (∀ db : DBState, delete_category db "General" =
      (db, some (DBError.valueError "Cannot delete the General category"))) := by
  refine ⟨⟨_, List.mem_cons_self _ _, rfl⟩, ?_, fun db => by simp [delete_category]⟩
  intro db op hg
  obtain ⟨c, hc, hname⟩ := hg
  cases op with
  | insert t now =>
    by_cases hcat : hasCategory db t.category = true <;>
      exact ⟨c, by simp [stepOp, insert_task, hcat, hc], hname⟩
  | update t now =>
    rcases hid : t.id with _ | tid
    · exact ⟨c, by simp [stepOp, update_task, hid, hc], hname⟩
    · by_cases hany : (db.tasks.any (fun r => r.id == tid)) = true
      · by_cases hcat : hasCategory db t.category = true <;>
          exact ⟨c, by simp [stepOp, update_task, hid, hany, hcat, hc], hname⟩
      · exact ⟨c, by simp only [stepOp, update_task, hid, if_neg hany]; exact hc, hname⟩
  | complete tid n₁ n₂ =>
    by_cases hany : (db.tasks.any (fun r => r.id == tid)) = true
    · exact ⟨c, by simp [stepOp, mark_task_complete, hany, hc], hname⟩
    · exact ⟨c, by simp only [stepOp, mark_task_complete, if_neg hany]; exact hc, hname⟩
  | incomplete tid now =>
    by_cases hany : (db.tasks.any (fun r => r.id == tid)) = true
    · exact ⟨c, by simp [stepOp, mark_task_incomplete, hany, hc], hname⟩
    · exact ⟨c, by simp only [stepOp, mark_task_incomplete, if_neg hany]; exact hc, hname⟩
  | delete tid =>
    by_cases hany : (db.tasks.any (fun r => r.id == tid)) = true
    · exact ⟨c, by simp [stepOp, delete_task, hany, hc], hname⟩
    · exact ⟨c, by simp only [stepOp, delete_task, if_neg hany]; exact hc, hname⟩
  | insertCat cat =>
    by_cases hdup : (db.categories.any (fun r => r.name == cat.name)) = true
    · exact ⟨c, by simp [stepOp, insert_category, hdup, hc], hname⟩
    · refine ⟨c, ?_, hname⟩
      simp only [stepOp, insert_category, if_neg hdup]
      exact List.mem_append.mpr (Or.inl hc)
  | deleteCat name =>
    by_cases hgen : (name == "General") = true
    · exact ⟨c, by simp [stepOp, delete_category, hgen, hc], hname⟩
    · by_cases hex : (db.categories.any (fun d => d.name == name)) = true
      · refine ⟨c, ?_, hname⟩
        simp only [stepOp, delete_category, if_neg hgen, hex, if_true]
        refine List.mem_filter.mpr ⟨hc, ?_⟩
        have hne : ¬ name = "General" := by simpa using hgen
        simp [hname]
        intro hcontr
        exact hne hcontr.symm
      · exact ⟨c, by simp only [stepOp, delete_category, if_neg hgen, if_neg hex]; exact hc,
          hname⟩

/-- C5 witness: through the theorem, the `General` category survives a
concrete category deletion, and deleting it directly on the fresh store
fails with the `ValueError`. -/
theorem c5_general_category_witness :
    GeneralExists (stepOp initialState (Op.deleteCat "Work")) ∧
    delete_category initialState "General" =
      (initialState, some (DBError.valueError "Cannot delete the General category")) :=
  ⟨c5_general_category.2.1 initialState (Op.deleteCat "Work") c5_general_category.1,
   c5_general_category.2.2 initialState⟩

/-! ### C6 -/

theorem from_dict_to_dict_id_none (t : Task) (h : taskValid t = true) :
    Task.from_dict { Task.to_dict t with id := none } =
      some { t with id := none } := by
  have hv : taskValid { t with id := none } = true := h
  simp only [Task.from_dict, Task.to_dict]
  simp only [hv, if_true]

theorem import_dicts_aux (ts : List Task) (h : ∀ t ∈ ts, taskValid t = true) :
    List.mapM (fun d => Task.from_dict { d with id := none })
        (ts.map Task.to_dict) =
      some (ts.map fun t => { t with id := none }) := by
  induction ts with
  | nil => rfl
  | cons t ts ih =>
    have ht := h t (List.mem_cons_self t ts)
    have hts : ∀ u ∈ ts, taskValid u = true :=
      fun u hu => h u (List.mem_cons_of_mem t hu)
    simp only [List.map_cons, List.mapM_cons, from_dict_to_dict_id_none t ht,
      ih hts, Option.bind_eq_bind, Option.some_bind]
    rfl

/-- Two valid tasks (one completed, with timestamps and a stored id) used
to witness the round trip. -/
def c6TaskA : Task :=
  { description := "buy milk", priority := "Low", category := "General",
    completed := false, id := some 3, due_date := some "2024-03-01",
    created_at := some "2024-02-01T08:00:00",
    updated_at := some "2024-02-01T08:00:00", completed_at := none }

/-- Second witness task for the round trip. -/
def c6TaskB : Task :=
  { description := "file taxes", priority := "Urgent", category := "Work",
    completed := true, id := some 9, due_date := none,
    created_at := some "2024-01-01T08:00:00",
    updated_at := some "2024-01-02T08:00:00",
    completed_at := some "2024-01-02T08:00:00" }

/-- C6: exporting a list of valid tasks to the JSON envelope and
importing the result yields the same tasks with their stored identifier
discarded (`id = none`) and every other field intact; and `insert_task`
never consults the incoming task's identifier, so an imported task is
assigned a fresh AUTOINCREMENT id on insert rather than reusing the
exported one. -/
theorem c6_json_round_trip (tasks : List Task) (exportedAt : String)
    (h : ∀ t ∈ tasks, taskValid t = true) :
    import_from_json (export_to_json tasks exportedAt) =
      some (tasks.map fun t => { t with id := none }) ∧
    (∀ (db : DBState) (u : Task) (now : String),
      insert_task db u now = insert_task db { u with id := none } now) :=
  ⟨import_dicts_aux tasks h, fun _ _ _ => rfl⟩

/-- C6 witness: the round trip on a concrete two-task list. -/
theorem c6_json_round_trip_witness :
    (∀ t ∈ [c6TaskA, c6TaskB], taskValid t = true) ∧
    import_from_json (export_to_json [c6TaskA, c6TaskB] "2024-04-01T12:00:00") =
      some [{ c6TaskA with id := none }, { c6TaskB with id := none }] :=
  ⟨by decide,
   (c6_json_round_trip [c6TaskA, c6TaskB] "2024-04-01T12:00:00" (by decide)).1⟩

/-! ### C7 -/

theorem sum_filter_lengths {α : Type} (f : α → String) :
    ∀ (ks : List String) (l : List α), ks.Nodup → (∀ r ∈ l, f r ∈ ks) →
      (ks.map (fun k => (l.filter (fun r => f r == k)).length)).sum = l.length := by
  intro ks
  induction ks with
  | nil =>
    intro l _ hcov
    match l with
    | [] => simp
    | a :: l₂ => exact absurd (hcov a (List.mem_cons_self a l₂)) (List.not_mem_nil _)
  | cons k ks ih =>
    intro l hnd hcov
    have hknotin : k ∉ ks := (List.nodup_cons.mp hnd).1
    have hndtail : ks.Nodup := (List.nodup_cons.mp hnd).2
    have hsplit : ∀ k₂ ∈ ks,
        l.filter (fun r => f r == k₂) =
          (l.filter (fun r => !(f r == k))).filter (fun r => f r == k₂) := by
      intro k₂ hk₂
      rw [List.filter_filter]
      apply List.filter_congr
      intro r _
      by_cases hrk : f r = k
      · have h₁ : (f r == k₂) = false :=
          beq_eq_false_iff_ne.mpr
            (fun hh => hknotin (by rw [hrk.symm.trans hh]; exact hk₂))
        simp [h₁]
      · have h₂ : (f r == k) = false := beq_eq_false_iff_ne.mpr hrk
        simp [h₂]
    have hcov₂ : ∀ r ∈ l.filter (fun r => !(f r == k)), f r ∈ ks := by
      intro r hr
      obtain ⟨hrl, hrk⟩ := List.mem_filter.mp hr
      have := hcov r hrl
      rcases List.mem_cons.mp this with h₁ | h₂
      · rw [h₁] at hrk
        simp at hrk
      · exact h₂
    have hmapeq :
        ks.map (fun k₂ => (l.filter (fun r => f r == k₂)).length) =
          ks.map (fun k₂ =>
            ((l.filter (fun r => !(f r == k))).filter (fun r => f r == k₂)).length) := by
      apply List.map_congr_left
      intro k₂ hk₂
      rw [hsplit k₂ hk₂]
    rw [List.map_cons, List.sum_cons, hmapeq, ih _ hndtail hcov₂]
    have hcnt := List.length_eq_countP_add_countP (fun r => f r == k) l
    rw [List.countP_eq_length_filter, List.countP_eq_length_filter] at hcnt
    have hpred : l.filter (fun a => decide ¬((f a == k) = true)) =
        l.filter (fun r => !(f r == k)) := by
      apply List.filter_congr
      intro r _
      by_cases h : f r = k
      · simp [h]
      · simp [h, beq_eq_false_iff_ne]
    rw [hpred] at hcnt
    omega

theorem groupCounts_mem {l : List TaskRow} {f : TaskRow → String}
    {p : String} {n : Nat} (h : (p, n) ∈ groupCounts l f) :
    n = (l.filter (fun r => f r == p)).length := by
  obtain ⟨k, _, hk⟩ := List.mem_map.mp h
  obtain ⟨h₁, h₂⟩ := Prod.mk.injEq .. ▸ hk
  exact h₂.symm.trans (by rw [h₁])

theorem groupCounts_sum (l : List TaskRow) (f : TaskRow → String) :
    ((groupCounts l f).map Prod.snd).sum = l.length := by
  unfold groupCounts
  rw [List.map_map]
  have : (Prod.snd ∘ fun k => (k, (l.filter (fun r => f r == k)).length)) =
      fun k => (l.filter (fun r => f r == k)).length := rfl
  rw [this]
  apply sum_filter_lengths f ((l.map f).dedup) l (List.nodup_dedup _)
  intro r hr
  exact List.mem_dedup.mpr (List.mem_map.mpr ⟨r, hr, rfl⟩)

/-- C7: for a store of N tasks of which K are completed,
`get_task_statistics` reports `total = N`, `completed = K`,
`active = N - K`; each `by_priority`/`by_category` entry counts exactly
the active tasks with that priority/category, both groupings sum to the
active count (which equals `active`); and, provided every stored due
date is a well-formed `YYYY-MM-DD` string, `overdue` counts exactly the
active tasks whose due date is non-null and lexicographically (hence
chronologically) strictly before today. -/
theorem c7_statistics (db : DBState) (today : String)
    (hdue : ∀ r ∈ db.tasks, ∀ d, r.due_date = some d → isISODate d = true) :
    (get_task_statistics db today).total = db.tasks.length ∧
    (get_task_statistics db today).completed =
      (db.tasks.filter (fun r => r.completed)).length ∧
    (get_task_statistics db today).active =
      (db.tasks.length : Int) -
        ((db.tasks.filter (fun r => r.completed)).length : Int) ∧
    (∀ p n, (p, n) ∈ (get_task_statistics db today).by_priority →
      n = (db.tasks.filter (fun r => !r.completed && r.priority == p)).length) ∧
    ((get_task_statistics db today).by_priority.map Prod.snd).sum =
      (db.tasks.filter (fun r => !r.completed)).length ∧
    (∀ c n, (c, n) ∈ (get_task_statistics db today).by_category →
      n = (db.tasks.filter (fun r => !r.completed && r.category == c)).length) ∧
    ((get_task_statistics db today).by_category.map Prod.snd).sum =
      (db.tasks.filter (fun r => !r.completed)).length ∧
    ((db.tasks.filter (fun r => !r.completed)).length : Int) =
      (get_task_statistics db today).active ∧
    (get_task_statistics db today).overdue =
      (db.tasks.filter (fun r => !r.completed &&
        (match r.due_date with
         | some d => decide (d < today)
         | none => false))).length := by
  refine ⟨rfl, rfl, rfl, ?_, ?_, ?_, ?_, ?_, ?_⟩
  · intro p n hmem
    have := groupCounts_mem hmem
    rw [this, List.filter_filter]
    apply congrArg
    apply List.filter_congr
    intro r _
    exact Bool.and_comm _ _
  · exact groupCounts_sum _ _
  · intro c n hmem
    have := groupCounts_mem hmem
    rw [this, List.filter_filter]
    apply congrArg
    apply List.filter_congr
    intro r _
    exact Bool.and_comm _ _
  · exact groupCounts_sum _ _
  · show ((db.tasks.filter (fun r => !r.completed)).length : Int) =
      (db.tasks.length : Int) - ((db.tasks.filter (fun r => r.completed)).length : Int)
    have := List.length_eq_countP_add_countP (fun r : TaskRow => r.completed) db.tasks
    rw [List.countP_eq_length_filter, List.countP_eq_length_filter] at this
    have hff : db.tasks.filter (fun r => decide ¬(r.completed = true)) =
        db.tasks.filter (fun r => !r.completed) := by
      apply List.filter_congr
      intro r _
      simp
    rw [hff] at this
    omega
  · show (db.tasks.filter (overdueCond today)).length = _
    apply congrArg
    apply List.filter_congr
    intro r hr
    unfold overdueCond
    rcases hd : r.due_date with _ | d
    · rfl
    · have hiso := hdue r hr d hd
      simp only [sqlDate, hiso, if_true]

/-- A concrete three-task store (one completed task, one overdue and one
future due date) for the statistics witness. -/
def c7db : DBState :=
  { tasks := [
      { id := 1, description := "a", priority := "High", category := "General",
        due_date := some "2024-05-01", completed := false,
        created_at := "T1", updated_at := "T1", completed_at := none },
      { id := 2, description := "b", priority := "Low", category := "Work",
        due_date := none, completed := true, created_at := "T2",
        updated_at := "T2", completed_at := some "T2" },
      { id := 3, description := "c", priority := "High", category := "General",
        due_date := some "2024-07-01", completed := false,
        created_at := "T3", updated_at := "T3", completed_at := none }]
    categories := [{ id := 1, name := "General", description := none },
                   { id := 2, name := "Work", description := none }]
    nextTaskId := 4
    nextCatId := 3 }

/-- C7 witness: the theorem applied to a concrete three-task store (one
completed, one overdue). -/
theorem c7_statistics_witness :
    (∀ r ∈ c7db.tasks, ∀ d, r.due_date = some d → isISODate d = true) ∧
    (get_task_statistics c7db "2024-06-01").total = c7db.tasks.length ∧
    ((get_task_statistics c7db "2024-06-01").by_priority.map Prod.snd).sum =
      (c7db.tasks.filter (fun r => !r.completed)).length ∧
    (get_task_statistics c7db "2024-06-01").overdue =
      (c7db.tasks.filter (fun r => !r.completed &&
        (match r.due_date with
         | some d => decide (d < "2024-06-01")
         | none => false))).length :=
  ⟨by decide,
   (c7_statistics c7db "2024-06-01" (by decide)).1,
   (c7_statistics c7db "2024-06-01" (by decide)).2.2.2.2.1,
   (c7_statistics c7db "2024-06-01" (by decide)).2.2.2.2.2.2.2.2⟩

/-! ### C8 -/

theorem any_congr {α : Type} {p q : α → Bool} :
    ∀ {l : List α}, (∀ a ∈ l, p a = q a) → l.any p = l.any q := by
  intro l
  induction l with
  | nil => intro _; rfl
  | cons a l ih =>
    intro h
    simp only [List.any_cons, h a (List.mem_cons_self a l),
      ih (fun b hb => h b (List.mem_cons_of_mem a hb))]

theorem tails_any_isEmpty : ∀ s : List Char, s.tails.any (fun t => t.isEmpty) = true := by
  intro s
  induction s with
  | nil => rfl
  | cons a s ih =>
    rw [List.tails_cons, List.any_cons, ih, Bool.or_true]

theorem tails_map_lowerC :
    ∀ s : List Char, (s.map lowerC).tails = s.tails.map (List.map lowerC) := by
  intro s
  induction s with
  | nil => rfl
  | cons a s ih =>
    rw [List.map_cons, List.tails_cons, List.tails_cons, List.map_cons, ← ih,
      List.map_cons]

theorem likeMatch_literal_pct (q : List Char)
    (hq : ∀ c ∈ q, ¬ c = '%' ∧ ¬ c = '_') :
    ∀ t : List Char,
      likeMatch (q ++ ['%']) t = (q.map lowerC).isPrefixOf (t.map lowerC) := by
  induction q with
  | nil =>
    intro t
    show (t.tails.any fun t₂ => likeMatch [] t₂) = _
    have h₁ : (t.tails.any fun t₂ => likeMatch [] t₂) =
        t.tails.any (fun t₂ => t₂.isEmpty) := by
      apply any_congr
      intro a _
      rfl
    rw [h₁, tails_any_isEmpty]
    cases t with
    | nil => rfl
    | cons d t₂ => rfl
  | cons c q ih =>
    intro t
    have hc := hq c (List.mem_cons_self c q)
    have hq₂ : ∀ d ∈ q, ¬ d = '%' ∧ ¬ d = '_' :=
      fun d hd => hq d (List.mem_cons_of_mem c hd)
    match t with
    | [] =>
      show (if c = '%' then (List.tails ([] : List Char)).any
              (fun t₂ => likeMatch (q ++ ['%']) t₂)
            else false) = _
      rw [if_neg hc.1]
      rfl
    | d :: t₂ =>
      show (if c = '%' then ((d :: t₂).tails.any fun t₃ => likeMatch (q ++ ['%']) t₃)
            else (if c = '_' then true else lowerC c == lowerC d) &&
              likeMatch (q ++ ['%']) t₂) = _
      rw [if_neg hc.1, if_neg hc.2, ih hq₂ t₂]
      rfl

theorem likeMatch_pct_literal_pct (q s : List Char)
    (hq : ∀ c ∈ q, ¬ c = '%' ∧ ¬ c = '_') :
    likeMatch ('%' :: (q ++ ['%'])) s = containsSub (s.map lowerC) (q.map lowerC) := by
  show (s.tails.any fun t => likeMatch (q ++ ['%']) t) = _
  have h₁ : (s.tails.any fun t => likeMatch (q ++ ['%']) t) =
      s.tails.any (fun t => (q.map lowerC).isPrefixOf (t.map lowerC)) := by
    apply any_congr
    intro t _
    exact likeMatch_literal_pct q hq t
  rw [h₁, containsSub, tails_map_lowerC, List.any_map]
  rfl

theorem noWildcards_chars {q : String} (hq : noWildcards q = true) :
    ∀ c ∈ q.data, ¬ c = '%' ∧ ¬ c = '_' := by
  intro c hc
  have := (List.all_eq_true.mp hq) c hc
  constructor
  · intro h
    rw [h] at this
    simp at this
  · intro h
    rw [h] at this
    simp at this

theorem sqlLike_contains (s q : String) (hq : noWildcards q = true) :
    sqlLike s ("%" ++ q ++ "%") =
      containsSub (s.data.map lowerC) (q.data.map lowerC) := by
  have hdata : ("%" ++ q ++ "%").data = '%' :: (q.data ++ ['%']) := by
    rw [String.data_append, String.data_append]
    rfl
  rw [sqlLike, hdata]
  exact likeMatch_pct_literal_pct q.data s.data (noWildcards_chars hq)

/-- A task whose description is lowercase `abc`, matched by the search
query `ABC` through SQLite's ASCII-case-insensitive `LIKE`. -/
def c8Task : Task :=
  { description := "abc", priority := "Medium", category := "General",
    completed := false, id := none, due_date := none, created_at := none,
    updated_at := none, completed_at := none }

/-- C8, counterexample: on a store whose single task has description
`abc`, `search_tasks "ABC"` returns that task even though its
description does not contain `ABC` as a substring — SQLite's default
`LIKE` is ASCII-case-insensitive, so the search clause of the claim is
false as stated. -/
theorem c8_search_counterexample :
    ((search_tasks (insert_task initialState c8Task "T0").1 "ABC").any
      (fun r => r.description == "abc")) = true ∧
    containsSub "abc".data "ABC".data = false := ⟨by decide, by decide⟩

/-- C8 (amended): `get_tasks_by_category c` returns exactly the stored
tasks whose category equals `c`, and `get_tasks_by_priority p` exactly
those whose priority equals `p` (TEXT `=` is case-sensitive); for a
query `q` free of the LIKE wildcards `%` and `_`, `search_tasks q`
returns exactly the stored tasks whose description contains `q` as a
substring up to ASCII case (both sides folded by `lowerC`). -/
theorem c8_filters (db : DBState) (c p q : String) (r : TaskRow)
    (hq : noWildcards q = true) :
    (r ∈ get_tasks_by_category db c ↔ r ∈ db.tasks ∧ r.category = c) ∧
    (r ∈ get_tasks_by_priority db p ↔ r ∈ db.tasks ∧ r.priority = p) ∧
    (r ∈ search_tasks db q ↔ r ∈ db.tasks ∧
      containsSub (r.description.data.map lowerC) (q.data.map lowerC) = true) := by
  refine ⟨?_, ?_, ?_⟩
  · rw [get_tasks_by_category, orderByCreatedDesc, List.mem_insertionSort,
      List.mem_filter]
    simp [beq_iff_eq]
  · rw [get_tasks_by_priority, orderByCreatedDesc, List.mem_insertionSort,
      List.mem_filter]
    simp [beq_iff_eq]
  · rw [search_tasks, orderByCreatedDesc, List.mem_insertionSort,
      List.mem_filter, sqlLike_contains r.description q hq]

/-- The first row of the `c7db` fixture, used to instantiate the filter
equivalences. -/
def c8Row : TaskRow :=
  { id := 1, description := "a", priority := "High", category := "General",
    due_date := some "2024-05-01", completed := false, created_at := "T1",
    updated_at := "T1", completed_at := none }

/-- C8 witness: the amended theorem applied to a concrete store and the
wildcard-free query `abc`. -/
theorem c8_filters_witness :
    noWildcards "abc" = true ∧
    (c8Row ∈ get_tasks_by_category c7db "General" ↔
      c8Row ∈ c7db.tasks ∧ c8Row.category = "General") ∧
    (c8Row ∈ search_tasks c7db "abc" ↔ c8Row ∈ c7db.tasks ∧
      containsSub (c8Row.description.data.map lowerC)
        ("abc".data.map lowerC) = true) :=
  ⟨by decide,
   (c8_filters c7db "General" "High" "abc" c8Row (by decide)).1,
   (c8_filters c7db "General" "High" "abc" c8Row (by decide)).2.2⟩

/-! ### C9 -/

/-- The duplicate of the default category, whose insertion violates the
UNIQUE constraint on `categories.name`. -/
def c9DupCategory : Category :=
  { name := "General", description := none, id := none }

/-- C9, counterexample: inserting a duplicate `General` category fails;
the transaction is rolled back and a typed `DatabaseError` raised, but
its message is `Transaction failed: UNIQUE constraint failed:
categories.name`, which does not name the failed operation (it does not
even contain `insert`): the `except` clauses of `insert_category` that
would produce `Category ... already exists` or `Failed to insert
category` never fire, because `transaction` has already converted the
`sqlite3.IntegrityError` into a `DatabaseError`, which is not a
`sqlite3.Error`. -/
theorem c9_counterexample :
    (insert_category initialState c9DupCategory).2 =
      Except.error (DBError.databaseError
        "Transaction failed: UNIQUE constraint failed: categories.name") ∧
    (insert_category initialState c9DupCategory).1 = initialState ∧
    containsSub
      "Transaction failed: UNIQUE constraint failed: categories.name".data
      "insert".data = false :=
  ⟨rfl, rfl, by decide⟩

/-- C9 (amended): every mutating operation that fails leaves the stored
state unchanged (the transaction is rolled back, or the statement
matched no rows) and raises a typed error from the operation's known
set; statement failures inside the transaction carry the generic
`Transaction failed: <sqlite error>` message (which does not name the
operation), the rowcount-zero checks carry `... not found` messages, and
the pre-checks carry `ValueError`s.  On success the transaction
commits the operation's effect. -/
theorem c9_transactions (db : DBState) :
    (∀ (t : Task) (now : String) (e : DBError),
      (insert_task db t now).2 = Except.error e →
      (insert_task db t now).1 = db ∧
      e = DBError.databaseError
        "Transaction failed: FOREIGN KEY constraint failed") ∧
    (∀ (t : Task) (now : String) (e : DBError),
      (update_task db t now).2 = some e →
      (update_task db t now).1 = db ∧
      (e = DBError.valueError "Cannot update task without ID" ∨
       (∃ tid, t.id = some tid ∧
         e = DBError.databaseError
           ("Task with ID " ++ toString tid ++ " not found")) ∨
       e = DBError.databaseError
         "Transaction failed: FOREIGN KEY constraint failed")) ∧
    (∀ (tid : Nat) (n₁ n₂ : String) (e : DBError),
      (mark_task_complete db tid n₁ n₂).2 = some e →
      (mark_task_complete db tid n₁ n₂).1 = db ∧
      e = DBError.databaseError
        ("Task with ID " ++ toString tid ++ " not found")) ∧
    (∀ (tid : Nat) (now : String) (e : DBError),
      (mark_task_incomplete db tid now).2 = some e →
      (mark_task_incomplete db tid now).1 = db ∧
      e = DBError.databaseError
        ("Task with ID " ++ toString tid ++ " not found")) ∧
    (∀ (tid : Nat) (e : DBError),
      (delete_task db tid).2 = some e →
      (delete_task db tid).1 = db ∧
      e = DBError.databaseError
        ("Task with ID " ++ toString tid ++ " not found")) ∧
    (∀ (c : Category) (e : DBError),
      (insert_category db c).2 = Except.error e →
      (insert_category db c).1 = db ∧
      e = DBError.databaseError
        "Transaction failed: UNIQUE constraint failed: categories.name") ∧
    (∀ (name : String) (e : DBError),
      (delete_category db name).2 = some e →
      (delete_category db name).1 = db ∧
      (e = DBError.valueError "Cannot delete the General category" ∨
       e = DBError.databaseError ("Category '" ++ name ++ "' not found"))) := by
  refine ⟨?_, ?_, ?_, ?_, ?_, ?_, ?_⟩
  · intro t now e he
    by_cases hcat : hasCategory db t.category = true
    · simp [insert_task, hcat] at he
    · simp only [insert_task, hcat, Bool.false_eq_true, if_false,
        Except.error.injEq] at he ⊢
      exact ⟨by trivial, he.symm⟩
  · intro t now e he
    rcases hid : t.id with _ | tid
    · simp only [update_task, hid, Option.some.injEq] at he ⊢
      exact ⟨by trivial, Or.inl he.symm⟩
    · by_cases hany : (db.tasks.any (fun r => r.id == tid)) = true
      · by_cases hcat : hasCategory db t.category = true
        · simp [update_task, hid, hany, hcat] at he
        · simp only [update_task, hid, hany, hcat, Bool.false_eq_true, if_true,
            if_false, Option.some.injEq] at he ⊢
          exact ⟨by trivial, Or.inr (Or.inr he.symm)⟩
      · simp only [update_task, hid] at he ⊢
        rw [if_neg hany] at he ⊢
        exact ⟨by trivial, Or.inr (Or.inl ⟨tid, rfl, (Option.some.injEq .. ▸ he).symm⟩)⟩
  · intro tid n₁ n₂ e he
    by_cases hany : (db.tasks.any (fun r => r.id == tid)) = true
    · simp [mark_task_complete, hany] at he
    · simp only [mark_task_complete] at he ⊢
      rw [if_neg hany] at he ⊢
      exact ⟨rfl, (Option.some.injEq .. ▸ he).symm⟩
  · intro tid now e he
    by_cases hany : (db.tasks.any (fun r => r.id == tid)) = true
    · simp [mark_task_incomplete, hany] at he
    · simp only [mark_task_incomplete] at he ⊢
      rw [if_neg hany] at he ⊢
      exact ⟨rfl, (Option.some.injEq .. ▸ he).symm⟩
  · intro tid e he
    by_cases hany : (db.tasks.any (fun r => r.id == tid)) = true
    · simp [delete_task, hany] at he
    · simp only [delete_task] at he ⊢
      rw [if_neg hany] at he ⊢
      exact ⟨rfl, (Option.some.injEq .. ▸ he).symm⟩
  · intro c e he
    by_cases hdup : (db.categories.any (fun r => r.name == c.name)) = true
    · simp only [insert_category, hdup, if_true, Except.error.injEq] at he ⊢
      exact ⟨by trivial, he.symm⟩
    · simp [insert_category, hdup] at he
  · intro name e he
    by_cases hgen : (name == "General") = true
    · simp only [delete_category, hgen, if_true, Option.some.injEq] at he ⊢
      exact ⟨by trivial, Or.inl he.symm⟩
    · by_cases hex : (db.categories.any (fun c => c.name == name)) = true
      · simp [delete_category, hgen, hex] at he
      · simp only [delete_category] at he ⊢
        rw [if_neg hgen, if_neg hex] at he ⊢
        exact ⟨rfl, Or.inr (Option.some.injEq .. ▸ he).symm⟩

/-- C9 witness: the amended theorem applied to the duplicate-category
insertion on the fresh store. -/
theorem c9_transactions_witness :
    (insert_category initialState c9DupCategory).1 = initialState ∧
    DBError.databaseError
        "Transaction failed: UNIQUE constraint failed: categories.name" =
      DBError.databaseError
        "Transaction failed: UNIQUE constraint failed: categories.name" :=
  ⟨((c9_transactions initialState).2.2.2.2.2.1 c9DupCategory
      (DBError.databaseError
        "Transaction failed: UNIQUE constraint failed: categories.name")
      rfl).1,
   ((c9_transactions initialState).2.2.2.2.2.1 c9DupCategory
      (DBError.databaseError
        "Transaction failed: UNIQUE constraint failed: categories.name")
      rfl).2⟩

end TaskManager
